import Mathlib

/-!
# CallMuteButton (ui/widgets/call_mute_button.cpp)

A shallow embedding of the state handling of `Ui::CallMuteButton` and of
`Ui::BlobsWidget`, followed by theorems about it.

Conventions of the embedding.

* `float64` and `float` values are rationals (`ℚ`): rounding and NaN are not
  represented.  `crl::time` and `int` are `Int`.
* A throwing lookup (`std::unordered_map::at`, indexing a vector) returns
  `Option`; functions that perform such lookups return `Option` of the next
  state.
* Reactive sources (`rpl::variable`, `rpl::event_stream`) are embedded by
  running their subscribers synchronously at the point of assignment, which
  is what the single-threaded library does.
* Painting, widget geometry changes, label layout and the main blob radius
  subscription are outside the embedding.
-/

namespace Ui

/-! ## External types -/

/-- The four variants named by the source file; the enum itself is declared
in `call_mute_button.h`. -/
inductive CallMuteButtonType where
  | ForceMuted
  | Active
  | Connecting
  | Muted
  deriving DecidableEq, Repr

/-- State of the button, `{ text, type }`, declared in `call_mute_button.h`. -/
structure CallMuteButtonState where
  text : String
  type : CallMuteButtonType
  deriving DecidableEq, Repr

/-- A `QColor` in RGB form with 8-bit channels. -/
structure QColor where
  red : Nat
  green : Nat
  blue : Nat
  alpha : Nat
  deriving DecidableEq, Repr

/-- The method `QColor::setAlpha(int)`. -/
def QColor.setAlpha (c : QColor) (a : Nat) : QColor :=
  { c with alpha := a }

/-- The colour `Qt::transparent`. -/
def QColor.transparent : QColor :=
  { red := 0, green := 0, blue := 0, alpha := 0 }

structure QPoint where
  x : Int
  y : Int
  deriving DecidableEq, Repr

structure QRect where
  x : Int
  y : Int
  width : Int
  height : Int
  deriving DecidableEq, Repr

/-- The method `QRect::center()`: the midpoint of the corner pixels, with C++ integer
division. -/
def QRect.center (r : QRect) : QPoint :=
  { x := Int.tdiv (r.x + (r.x + r.width - 1)) 2,
    y := Int.tdiv (r.y + (r.y + r.height - 1)) 2 }

/-- What a `QBrush` holds in this file: the initial `Qt::transparent`, or a
linear or radial gradient with its geometry and colour stops. -/
inductive QBrush where
  | transparent
  | linear (start finalStop : QPoint) (stops : List QColor)
  | radial (center : QPoint) (radius : Int) (stops : List QColor)
  deriving DecidableEq, Repr

/-- The struct `CallButtonColors`: the pair fired on `_colorOverrides`. -/
structure CallButtonColors where
  bg : Option QColor
  ripple : Option QColor
  deriving DecidableEq, Repr

/-- The palette entries (`st::...->c`) read by the source file.  The style
tables are generated outside the repository sources, so they are taken as
given. -/
structure Palette where
  callIconBg : QColor
  groupCallLive1 : QColor
  groupCallLive2 : QColor
  groupCallMuted1 : QColor
  groupCallMuted2 : QColor
  groupCallBg : QColor
  deriving DecidableEq, Repr

/-- The arguments an `anim::linear_gradient` object is built from. -/
structure LinearGradients where
  colorsFrom : List QColor
  colorsTo : List QColor
  point1 : QPoint
  point2 : QPoint
  deriving DecidableEq, Repr

/-- The arguments an `anim::radial_gradient` object is built from. -/
structure RadialGradients where
  colorsFrom : List QColor
  colorsTo : List QColor
  center : QPoint
  radius : Int
  deriving DecidableEq, Repr

/-- Everything the source file takes from its surroundings: the palette, the
interpolators of `ui/effects` (`anim::color` and the `gradient(value)` method
of the two gradient objects), the global `anim::Disabled()` flag, and whether
`CallMuteButtonState` has an `operator==` (which decides whether
`rpl::variable` suppresses the assignment of an equal value). -/
structure Env where
  st : Palette
  color : QColor → QColor → ℚ → QColor
  linearGradient : LinearGradients → ℚ → QBrush
  radialGradient : RadialGradients → ℚ → QBrush
  disabled : Bool
  stateComparable : Bool

/-! ## Constants and helpers of the anonymous namespace -/

def kGlowAlpha : Nat := 150

def kOverrideColorBgAlpha : Nat := 76

def kOverrideColorRippleAlpha : Nat := 50

def kSwitchStateDuration : Int := 120

/-- The table returned by `Colors()`, in the order of its initializer list. -/
def Colors (st : Palette) : List (CallMuteButtonType × List QColor) :=
  [ (CallMuteButtonType.ForceMuted, [st.callIconBg, st.callIconBg]),
    (CallMuteButtonType.Active, [st.groupCallLive1, st.groupCallLive2]),
    (CallMuteButtonType.Connecting, [st.callIconBg, st.callIconBg]),
    (CallMuteButtonType.Muted, [st.groupCallMuted1, st.groupCallMuted2]) ]

/-- The lookup `std::unordered_map::at`: `none` stands for `std::out_of_range`. -/
def mapAt (m : List (CallMuteButtonType × List QColor))
    (key : CallMuteButtonType) : Option (List QColor) :=
  (m.find? (fun e => decide (e.1 = key))).map (fun e => e.2)

/-- Conversion of a `float64` to `int` (truncation towards zero), as done
implicitly for the first two arguments of `InterpolateF`. -/
def toInt (q : ℚ) : Int :=
  if 0 ≤ q then Int.floor q else Int.ceil q

/-- The function `InterpolateF(int a, int b, float64 b_ratio)`. -/
def InterpolateF (a b : Int) ( b_ratio : ℚ) : ℚ :=
  (a : ℚ) + ((b - a : Int) : ℚ) * b_ratio

def IsMuted (type : CallMuteButtonType) : Bool :=
  decide (type ≠ CallMuteButtonType.Active)

def IsConnecting (type : CallMuteButtonType) : Bool :=
  decide (type = CallMuteButtonType.Connecting)

def IsInactive (type : CallMuteButtonType) : Bool :=
  IsConnecting type || decide (type = CallMuteButtonType.ForceMuted)

/-! ## BlobsWidget -/

/-- The members of `BlobsWidget` that the button reaches.  The painter
`Paint::Blobs _blobs` is represented by `levels`, the arguments its
`setLevel` has received so far (oldest first); `width` is the widget width. -/
structure BlobsWidget where
  levels : List ℚ
  blobBrush : QBrush
  glowBrush : QBrush
  inner : QRect
  width : Int
  deriving DecidableEq, Repr

def BlobsWidget.innerRect (b : BlobsWidget) : QRect :=
  b.inner

def BlobsWidget.setBlobBrush (b : BlobsWidget) (brush : QBrush) : BlobsWidget :=
  if b.blobBrush = brush then b else { b with blobBrush := brush }

def BlobsWidget.setGlowBrush (b : BlobsWidget) (brush : QBrush) : BlobsWidget :=
  if b.glowBrush = brush then b else { b with glowBrush := brush }

/-- The method `BlobsWidget::setLevel`: hands the level to the painter. -/
def BlobsWidget.setLevel (b : BlobsWidget) (level : ℚ) : BlobsWidget :=
  { b with levels := b.levels ++ [level] }

/-! ## CallMuteButton -/

/-- The spinner object held by `_radial`. -/
structure InfiniteRadialAnimation where
  animating : Bool
  deriving DecidableEq, Repr

/-- The captures of the `callback` lambda built by the state type handler. -/
structure SwitchCallback where
  previous : CallMuteButtonType
  type : CallMuteButtonType
  crossFrom : ℚ
  crossTo : ℚ
  radialShowFrom : ℚ
  radialShowTo : ℚ
  gradient : LinearGradients
  glow : RadialGradients
  deriving DecidableEq, Repr

/-- Modelled from the spec: `Ui::Animations::Simple` (ui/effects/animations.h)
is not among the sources.  A started animation keeps its callback, the two
ends of the ramp, its duration in milliseconds and the time it was started
at; it is a linear-time ramp of fixed duration. -/
structure SimpleAnimation where
  callback : SwitchCallback
  valueFrom : ℚ
  valueTo : ℚ
  duration : Int
  started : Int
  deriving DecidableEq, Repr

/-- The members of `CallMuteButton` the embedded functions touch, together
with `*previousType` (the value kept in the lifetime of the widget) and
`colorOverrides`, the events fired on `_colorOverrides` so far (oldest
first). -/
structure CallMuteButton where
  state : CallMuteButtonState
  level : ℚ
  crossLineProgress : ℚ
  radialShowProgress : ℚ
  blobs : BlobsWidget
  radial : Option InfiniteRadialAnimation
  previousType : CallMuteButtonType
  switchAnimation : Option SimpleAnimation
  colorOverrides : List CallButtonColors
  deriving DecidableEq, Repr

/-- The subscriber of `_radialShowProgress.value()`. -/
def radialShowProgressHandler (env : Env) (value : ℚ)
    (s : CallMuteButton) : CallMuteButton :=
  if (value = 0 ∨ env.disabled = true) ∧ s.radial.isSome = true then
    { s with radial := none }
  else if 0 < value ∧ env.disabled = false ∧ s.radial.isSome = false then
    { s with radial := some { animating := true } }
  else
    s

/-- The `glowColor` lambda. -/
def glowColor (env : Env) (type : CallMuteButtonType) : Option QColor :=
  if IsInactive type = true then
    some env.st.groupCallBg
  else do
    let colors ← mapAt (Colors env.st) type
    let c ← colors[0]?
    pure (c.setAlpha kGlowAlpha)

/-- The method `CallMuteButton::overridesColors`. -/
def overridesColors (env : Env) (fromType toType : CallMuteButtonType)
    (progress : ℚ) (s : CallMuteButton) : Option CallMuteButton :=
  let toInactive := IsInactive toType
  let fromInactive := IsInactive fromType
  if toInactive = true ∧ progress = 1 then
    some { s with colorOverrides := s.colorOverrides ++ [{ bg := none, ripple := none }] }
  else do
    let fromColors ← mapAt (Colors env.st) fromType
    let from0 ← fromColors[0]?
    let toColors ← mapAt (Colors env.st) toType
    let to0 ← toColors[0]?
    let toRipple := if toInactive = false then to0.setAlpha kOverrideColorRippleAlpha else to0
    let to1 := if toInactive = false then to0.setAlpha kOverrideColorBgAlpha else to0
    let fromRipple :=
      if fromInactive = false then from0.setAlpha kOverrideColorRippleAlpha else from0
    let from1 := if fromInactive = false then from0.setAlpha kOverrideColorBgAlpha else from0
    let resultBg := env.color from1 to1 progress
    let resultRipple := env.color fromRipple toRipple progress
    some { s with
      colorOverrides := s.colorOverrides ++ [{ bg := some resultBg, ripple := some resultRipple }] }

/-- The guarded assignment of `_crossLineProgress` in the callback. -/
def CallMuteButton.updateCrossLineProgress (crossProgress : ℚ)
    (s : CallMuteButton) : CallMuteButton :=
  if crossProgress ≠ s.crossLineProgress then
    { s with crossLineProgress := crossProgress }
  else s

/-- The guarded assignment `_radialShowProgress = radialShowProgress` in the
callback: a changed value is stored and handed to the subscriber. -/
def CallMuteButton.assignRadialShowProgress (env : Env) (radialShowProgress : ℚ)
    (s : CallMuteButton) : CallMuteButton :=
  if radialShowProgress ≠ s.radialShowProgress then
    radialShowProgressHandler env radialShowProgress
      { s with radialShowProgress := radialShowProgress }
  else s

/-- The body of the `callback` lambda, run by the switch animation with the
current value of the ramp. -/
def SwitchCallback.invoke (env : Env) (cb : SwitchCallback) (value : ℚ)
    (s : CallMuteButton) : Option CallMuteButton :=
  let blobs1 := s.blobs.setBlobBrush (env.linearGradient cb.gradient value)
  let blobs2 := blobs1.setGlowBrush (env.radialGradient cb.glow value)
  let s1 : CallMuteButton := { s with blobs := blobs2 }
  let crossProgress :=
    if cb.crossFrom = cb.crossTo then cb.crossTo
    else InterpolateF (toInt cb.crossFrom) (toInt cb.crossTo) value
  let s2 := s1.updateCrossLineProgress crossProgress
  let radialShowProgress :=
    if cb.radialShowFrom = cb.radialShowTo then cb.radialShowTo
    else InterpolateF (toInt cb.radialShowFrom) (toInt cb.radialShowTo) value
  let s3 := s2.assignRadialShowProgress env radialShowProgress
  overridesColors env cb.previous cb.type value s3

/-- The part of the state type handler that builds the `callback` lambda for
the step from `previous` to `type`, with the geometry of the blobs widget. -/
def switchCallback (env : Env) (previous type : CallMuteButtonType)
    (blobs : BlobsWidget) : Option SwitchCallback := do
  let crossFrom : ℚ := if IsMuted previous = true then 0 else 1
  let crossTo : ℚ := if IsMuted type = true then 0 else 1
  let radialShowFrom : ℚ := if IsConnecting previous = true then 1 else 0
  let radialShowTo : ℚ := if IsConnecting type = true then 1 else 0
  let blobsInner := blobs.innerRect
  let colorsPrevious ← mapAt (Colors env.st) previous
  let colorsType ← mapAt (Colors env.st) type
  let gradient : LinearGradients :=
    { colorsFrom := colorsPrevious,
      colorsTo := colorsType,
      point1 := { x := blobsInner.x, y := blobsInner.y + blobsInner.height },
      point2 := { x := blobsInner.x + blobsInner.width, y := blobsInner.y } }
  let glowPrevious ← glowColor env previous
  let glowType ← glowColor env type
  let glow : RadialGradients :=
    { colorsFrom := [glowPrevious, QColor.transparent],
      colorsTo := [glowType, QColor.transparent],
      center := blobsInner.center,
      radius := Int.tdiv blobs.width 2 }
  pure
    { previous := previous, type := type,
      crossFrom := crossFrom, crossTo := crossTo,
      radialShowFrom := radialShowFrom, radialShowTo := radialShowTo,
      gradient := gradient, glow := glow }

/-- The subscriber of the type of `_state.value()`: it runs at construction
with the initial type and after every change of `_state`.  `now` is the time
of the call; `_switchAnimation.stop()` followed by
`_switchAnimation.start(callback, 0., 1., kSwitchStateDuration)` replaces
whatever animation was there by a fresh one. -/
def stateTypeHandler (env : Env) (now : Int) (type : CallMuteButtonType)
    (s : CallMuteButton) : Option CallMuteButton := do
  let previous := s.previousType
  let s1 : CallMuteButton := { s with previousType := type }
  let callback ← switchCallback env previous type s1.blobs
  let s2 : CallMuteButton := { s1 with switchAnimation := none }
  pure { s2 with
    switchAnimation := some
      { callback := callback, valueFrom := 0, valueTo := 1,
        duration := kSwitchStateDuration, started := now } }

/-- The method `CallMuteButton::setState`: the assignment `_state = state`.  An
`rpl::variable` of a type with `operator==` keeps silent when an equal value
is assigned; otherwise it stores the value and notifies the subscribers, of
which the state type handler is the one embedded here (the label producer
reads `state.text`). -/
def CallMuteButton.setState (env : Env) (now : Int) (state : CallMuteButtonState)
    (s : CallMuteButton) : Option CallMuteButton :=
  if env.stateComparable = true ∧ s.state = state then
    some s
  else
    stateTypeHandler env now state.type { s with state := state }

/-- The method `CallMuteButton::setLevel`. -/
def CallMuteButton.setLevel (level : ℚ) (s : CallMuteButton) : CallMuteButton :=
  { s with level := level, blobs := s.blobs.setLevel level }

/-- Modelled from the spec: one frame of `Ui::Animations::Simple`
(ui/effects/animations.h, not among the sources) at time `now`.  The ramp is
linear in time over `duration`; with animations disabled the whole duration
counts as elapsed.  A finished animation stops, and the callback receives
the value of the ramp. -/
def CallMuteButton.tick (env : Env) (now : Int) (s : CallMuteButton) :
    Option CallMuteButton :=
  match s.switchAnimation with
  | none => some s
  | some a =>
    let time : Int := if env.disabled = true then a.duration else now - a.started
    let finished : Bool := decide (a.duration ≤ time)
    let value : ℚ :=
      if finished = true then a.valueTo
      else a.valueFrom + (a.valueTo - a.valueFrom) * ((time : ℚ) / (a.duration : ℚ))
    let s1 : CallMuteButton :=
      if finished = true then { s with switchAnimation := none } else s
    a.callback.invoke env value s1

/-- The constructor followed by `init()`: `_radial(nullptr)`, the
subscription to `_radialShowProgress` (which replays the current value),
`*previousType` set to the initial type, and the subscription to the state
type, which runs the handler once with the initial type.  The numeric
members start at zero. -/
def CallMuteButton.create (env : Env) (now : Int) (blobs : BlobsWidget)
    (initial : CallMuteButtonState) : Option CallMuteButton :=
  let s0 : CallMuteButton :=
    { state := initial, level := 0, crossLineProgress := 0, radialShowProgress := 0,
      blobs := blobs, radial := none, previousType := initial.type,
      switchAnimation := none, colorOverrides := [] }
  let s1 := radialShowProgressHandler env s0.radialShowProgress s0
  stateTypeHandler env now s1.state.type s1

/-- A call made on the button from outside, or a frame of the animation. -/
inductive Call where
  | setState (now : Int) (state : CallMuteButtonState)
  | setLevel (level : ℚ)
  | tick (now : Int)
  deriving DecidableEq, Repr

def CallMuteButton.step (env : Env) (s : CallMuteButton) : Call → Option CallMuteButton
  | Call.setState now state => s.setState env now state
  | Call.setLevel level => some (s.setLevel level)
  | Call.tick now => s.tick env now

/-- Runs a sequence of calls, oldest first. -/
def CallMuteButton.run (env : Env) (s : CallMuteButton) : List Call → Option CallMuteButton
  | [] => some s
  | c :: cs => (s.step env c).bind (fun s1 => s1.run env cs)

/-- The values a frame leaves for the drawing code and the surrounding
chrome: the two progress values, the two brushes of the blobs widget and the
colour override fired last. -/
structure OutputFrame where
  crossFadeProgress : ℚ
  spinnerProgress : ℚ
  blobBrush : QBrush
  glowBrush : QBrush
  chromeColorOverride : Option CallButtonColors
  deriving DecidableEq, Repr

def CallMuteButton.outputs (s : CallMuteButton) : OutputFrame :=
  { crossFadeProgress := s.crossLineProgress,
    spinnerProgress := s.radialShowProgress,
    blobBrush := s.blobs.blobBrush,
    glowBrush := s.blobs.glowBrush,
    chromeColorOverride := s.colorOverrides.getLast? }

/-! ## A concrete environment -/

/-- Modelled from the spec: `anim::color` (ui/effects, not among the
sources) as the channel-wise linear interpolation of two colours, rounded
down to whole channel values. -/
def specColor (a b : QColor) (t : ℚ) : QColor :=
  let mix (x y : Nat) : Nat := Int.toNat (Int.floor ((x : ℚ) + ((y : ℚ) - (x : ℚ)) * t))
  { red := mix a.red b.red, green := mix a.green b.green,
    blue := mix a.blue b.blue, alpha := mix a.alpha b.alpha }

/-- Modelled from the spec: the `gradient(value)` method of
`anim::linear_gradient`, the gradient between the two points whose stops are
the interpolated colours. -/
def specLinearGradient (g : LinearGradients) (t : ℚ) : QBrush :=
  QBrush.linear g.point1 g.point2
    (List.zipWith (fun a b => specColor a b t) g.colorsFrom g.colorsTo)

/-- Modelled from the spec: the `gradient(value)` method of
`anim::radial_gradient`. -/
def specRadialGradient (g : RadialGradients) (t : ℚ) : QBrush :=
  QBrush.radial g.center g.radius
    (List.zipWith (fun a b => specColor a b t) g.colorsFrom g.colorsTo)

def samplePalette : Palette :=
  { callIconBg := { red := 40, green := 40, blue := 40, alpha := 255 },
    groupCallLive1 := { red := 0, green := 200, blue := 170, alpha := 255 },
    groupCallLive2 := { red := 0, green := 170, blue := 230, alpha := 255 },
    groupCallMuted1 := { red := 90, green := 120, blue := 240, alpha := 255 },
    groupCallMuted2 := { red := 0, green := 180, blue := 240, alpha := 255 },
    groupCallBg := { red := 20, green := 20, blue := 20, alpha := 255 } }

def sampleEnv : Env :=
  { st := samplePalette, color := specColor, linearGradient := specLinearGradient,
    radialGradient := specRadialGradient, disabled := false, stateComparable := false }

def sampleBlobs : BlobsWidget :=
  { levels := [], blobBrush := QBrush.transparent, glowBrush := QBrush.transparent,
    inner := { x := 20, y := 20, width := 100, height := 100 }, width := 140 }

/-- A fixture: a button without a running animation whose two progress
members hold the terminal values of the given state.  Its brushes are still
transparent and no event is recorded, so it is not the state the constructor
and a completed first animation leave. -/
def sampleButton (state : CallMuteButtonState) : CallMuteButton :=
  { state := state, level := 0,
    crossLineProgress := if state.type = CallMuteButtonType.Active then 1 else 0,
    radialShowProgress := if state.type = CallMuteButtonType.Connecting then 1 else 0,
    blobs := sampleBlobs, radial := none, previousType := state.type,
    switchAnimation := none, colorOverrides := [] }

/-! ## Lookups in the colour table -/

theorem mapAt_Colors (st : Palette) (type : CallMuteButtonType) :
    mapAt (Colors st) type = some
      (match type with
        | CallMuteButtonType.ForceMuted => [st.callIconBg, st.callIconBg]
        | CallMuteButtonType.Active => [st.groupCallLive1, st.groupCallLive2]
        | CallMuteButtonType.Connecting => [st.callIconBg, st.callIconBg]
        | CallMuteButtonType.Muted => [st.groupCallMuted1, st.groupCallMuted2]) := by
  cases type <;> rfl

theorem glowColor_eq (env : Env) (type : CallMuteButtonType) :
    glowColor env type = some
      (match type with
        | CallMuteButtonType.ForceMuted => env.st.groupCallBg
        | CallMuteButtonType.Active => env.st.groupCallLive1.setAlpha kGlowAlpha
        | CallMuteButtonType.Connecting => env.st.groupCallBg
        | CallMuteButtonType.Muted => env.st.groupCallMuted1.setAlpha kGlowAlpha) := by
  cases type <;> rfl

theorem switchCallback_isSome (env : Env) (previous type : CallMuteButtonType)
    (blobs : BlobsWidget) : (switchCallback env previous type blobs).isSome = true := by
  cases previous <;> cases type <;> rfl

theorem overridesColors_isSome (env : Env) (fromType toType : CallMuteButtonType)
    (progress : ℚ) (s : CallMuteButton) :
    (overridesColors env fromType toType progress s).isSome = true := by
  unfold overridesColors
  by_cases h : IsInactive toType = true ∧ progress = 1
  · simp [h]
  · cases fromType <;> cases toType <;> simp [h, mapAt, Colors]

theorem mapAt_Colors_pair (st : Palette) (type : CallMuteButtonType) :
    ∃ c0 c1, mapAt (Colors st) type = some [c0, c1] := by
  cases type <;> exact ⟨_, _, rfl⟩

theorem isInactive_iff (type : CallMuteButtonType) :
    IsInactive type = true ↔
      (type = CallMuteButtonType.ForceMuted ∨ type = CallMuteButtonType.Connecting) := by
  cases type <;> simp [IsInactive, IsConnecting]

/-! ## overridesColors -/

theorem overridesColors_null (env : Env) (fromType toType : CallMuteButtonType)
    (progress : ℚ) (s : CallMuteButton)
    (h : IsInactive toType = true ∧ progress = 1) :
    overridesColors env fromType toType progress s = some
      { s with colorOverrides := s.colorOverrides ++ [{ bg := none, ripple := none }] } := by
  unfold overridesColors
  simp only [h, and_self, if_true]

theorem overridesColors_blend (env : Env) (fromType toType : CallMuteButtonType)
    (progress : ℚ) (s : CallMuteButton) (cf ct : QColor) (restF restT : List QColor)
    (hf : mapAt (Colors env.st) fromType = some (cf :: restF))
    (ht : mapAt (Colors env.st) toType = some (ct :: restT))
    (h : ¬ (IsInactive toType = true ∧ progress = 1)) :
    overridesColors env fromType toType progress s = some
      { s with colorOverrides := s.colorOverrides ++
          [{ bg := some (env.color
                (if IsInactive fromType = true then cf else cf.setAlpha kOverrideColorBgAlpha)
                (if IsInactive toType = true then ct else ct.setAlpha kOverrideColorBgAlpha)
                progress),
             ripple := some (env.color
                (if IsInactive fromType = true then cf else cf.setAlpha kOverrideColorRippleAlpha)
                (if IsInactive toType = true then ct else ct.setAlpha kOverrideColorRippleAlpha)
                progress) }] } := by
  unfold overridesColors
  simp only [hf, ht, h, if_false]
  cases hF : IsInactive fromType <;> cases hT : IsInactive toType <;> simp

/-- Whatever the arguments, `overridesColors` returns the state it was given
with exactly one more event, which does not depend on that state, and
touches nothing else. -/
theorem overridesColors_fires_one (env : Env) (fromType toType : CallMuteButtonType)
    (progress : ℚ) :
    ∃ e, (∀ s, overridesColors env fromType toType progress s
        = some { s with colorOverrides := s.colorOverrides ++ [e] }) ∧
      (e = { bg := none, ripple := none } ↔ (progress = 1 ∧ IsInactive toType = true)) ∧
      ((e.bg = none ∨ e.ripple = none) → (progress = 1 ∧ IsInactive toType = true)) := by
  by_cases h : IsInactive toType = true ∧ progress = 1
  · refine ⟨_, fun s => overridesColors_null env fromType toType progress s h, ?_, ?_⟩
    · simp [h.1, h.2]
    · intro _
      exact ⟨h.2, h.1⟩
  · obtain ⟨cf, cf1, hf⟩ := mapAt_Colors_pair env.st fromType
    obtain ⟨ct, ct1, ht⟩ := mapAt_Colors_pair env.st toType
    refine ⟨_, fun s => overridesColors_blend env fromType toType progress s cf ct _ _ hf ht h,
      ?_, ?_⟩
    · constructor
      · intro he
        simp at he
      · intro hp
        exact absurd ⟨hp.2, hp.1⟩ h
    · intro he
      simp at he

/-! ## Claims about the colour table and the colour overrides -/

/-- C10: the table built by `Colors()` has exactly one entry for each of the
four variants and every entry holds exactly two colours; `ForceMuted` and
`Connecting` map to the same pair; hence every `_colors.at(type)` and
`_colors.at(type)[0]` made by `glowColor`, by the state type handler (for
the previous and the new type) and by `overridesColors` succeeds. -/
theorem C10_colors_exhaustive (env : Env) (previous type : CallMuteButtonType) :
    (∃ c0 c1, mapAt (Colors env.st) type = some [c0, c1]) ∧
    ((Colors env.st).map (fun e => e.1)).count type = 1 ∧
    (Colors env.st).length = 4 ∧
    mapAt (Colors env.st) CallMuteButtonType.ForceMuted
      = mapAt (Colors env.st) CallMuteButtonType.Connecting ∧
    (∃ c, (mapAt (Colors env.st) type).bind (fun colors => colors[0]?) = some c) ∧
    (glowColor env type).isSome = true ∧
    (∀ blobs, (switchCallback env previous type blobs).isSome = true) ∧
    (∀ now s, (stateTypeHandler env now type s).isSome = true) ∧
    (∀ progress s, (overridesColors env previous type progress s).isSome = true) := by
  refine ⟨mapAt_Colors_pair env.st type, ?_, rfl, rfl, ?_, ?_, ?_, ?_, ?_⟩
  · cases type <;> simp [Colors]
  · obtain ⟨c0, c1, h⟩ := mapAt_Colors_pair env.st type
    exact ⟨c0, by simp [h]⟩
  · rw [glowColor_eq]
    rfl
  · intro blobs
    exact switchCallback_isSome env previous type blobs
  · intro now s
    have h := switchCallback_isSome env s.previousType type s.blobs
    obtain ⟨cb, hcb⟩ := Option.isSome_iff_exists.mp h
    simp [stateTypeHandler, hcb]
  · intro progress s
    exact overridesColors_isSome env previous type progress s

/-- C4: for every pair of types and every progress (in particular every
progress in [0,1]) `overridesColors` fires exactly one event; the event is
the pair `(nullopt, nullopt)` exactly when `progress == 1` and `toType` is
inactive (`ForceMuted` or `Connecting`), and otherwise both of its members
are colours.  `Active` is not inactive, so for `Muted -> Active` the pair is
non-null at every progress, 1 included. -/
theorem C4_overrides_event (env : Env) (fromType toType : CallMuteButtonType)
    (progress : ℚ) (s : CallMuteButton) :
    (∃ e, overridesColors env fromType toType progress s
        = some { s with colorOverrides := s.colorOverrides ++ [e] } ∧
      (e = { bg := none, ripple := none } ↔ (progress = 1 ∧ IsInactive toType = true)) ∧
      ((e.bg = none ∨ e.ripple = none) → (progress = 1 ∧ IsInactive toType = true))) ∧
    (IsInactive toType = true ↔
      (toType = CallMuteButtonType.ForceMuted ∨ toType = CallMuteButtonType.Connecting)) ∧
    (∃ bg ripple, overridesColors env CallMuteButtonType.Muted CallMuteButtonType.Active progress s
        = some { s with colorOverrides :=
            s.colorOverrides ++ [{ bg := some bg, ripple := some ripple }] }) := by
  obtain ⟨e, he, h1, h2⟩ := overridesColors_fires_one env fromType toType progress
  refine ⟨⟨e, he s, h1, h2⟩, isInactive_iff toType, ?_⟩
  exact ⟨_, _, overridesColors_blend env CallMuteButtonType.Muted CallMuteButtonType.Active
    progress s _ _ _ _ rfl rfl (by simp [IsInactive, IsConnecting])⟩

/-- Witness of C4 at `ForceMuted -> Connecting`, progress 1. -/
theorem C4_overrides_event_witness :
    overridesColors sampleEnv CallMuteButtonType.Muted CallMuteButtonType.Connecting 1
        { state := { text := "Connecting", type := CallMuteButtonType.Connecting },
          level := 0, crossLineProgress := 0, radialShowProgress := 0, blobs := sampleBlobs,
          radial := none, previousType := CallMuteButtonType.Connecting,
          switchAnimation := none, colorOverrides := [] }
      = some
        { state := { text := "Connecting", type := CallMuteButtonType.Connecting },
          level := 0, crossLineProgress := 0, radialShowProgress := 0, blobs := sampleBlobs,
          radial := none, previousType := CallMuteButtonType.Connecting,
          switchAnimation := none, colorOverrides := [{ bg := none, ripple := none }] } := by
  obtain ⟨⟨e, h, hiff, _⟩, _, _⟩ := C4_overrides_event sampleEnv CallMuteButtonType.Muted
    CallMuteButtonType.Connecting 1
    { state := { text := "Connecting", type := CallMuteButtonType.Connecting },
      level := 0, crossLineProgress := 0, radialShowProgress := 0, blobs := sampleBlobs,
      radial := none, previousType := CallMuteButtonType.Connecting,
      switchAnimation := none, colorOverrides := [] }
  have he : e = { bg := none, ripple := none } := hiff.mpr ⟨rfl, rfl⟩
  rw [h, he]
  rfl

/-! ## The callback of the switch animation -/

/-- The value the callback computes for `_crossLineProgress`. -/
theorem crossProgress_eq (a b : ℚ) (ha : a = 0 ∨ a = 1) (hb : b = 0 ∨ b = 1) (t : ℚ) :
    (if a = b then b else InterpolateF (toInt a) (toInt b) t) = a + (b - a) * t := by
  rcases ha with rfl | rfl <;> rcases hb with rfl | rfl <;>
    simp [InterpolateF, toInt]

theorem setBrushes_eq (b : BlobsWidget) (blob glow : QBrush) :
    (b.setBlobBrush blob).setGlowBrush glow
      = { b with blobBrush := blob, glowBrush := glow } := by
  unfold BlobsWidget.setBlobBrush BlobsWidget.setGlowBrush
  split_ifs with h1 h2 h2 <;> cases b <;> simp_all

theorem updateCrossLineProgress_eq (crossProgress : ℚ) (s : CallMuteButton) :
    s.updateCrossLineProgress crossProgress
      = { s with crossLineProgress := crossProgress } := by
  unfold CallMuteButton.updateCrossLineProgress
  split_ifs with h
  · rfl
  · cases s
    simp_all

theorem radialShowProgressHandler_eq (env : Env) (value : ℚ) (s : CallMuteButton) :
    radialShowProgressHandler env value s
      = { s with radial := (radialShowProgressHandler env value s).radial } := by
  unfold radialShowProgressHandler
  split_ifs <;> rfl

theorem radialShowProgressHandler_radial_congr (env : Env) (value : ℚ)
    (s s1 : CallMuteButton) (h : s.radial = s1.radial) :
    (radialShowProgressHandler env value s).radial
      = (radialShowProgressHandler env value s1).radial := by
  unfold radialShowProgressHandler
  rw [h]
  split_ifs <;> simp [h]

/-- The effect of the guarded assignment of `_radialShowProgress`: the value
is stored, and the spinner is what the handler makes of it when the value
changed and is left alone otherwise. -/
theorem assignRadialShowProgress_eq (env : Env) (value : ℚ) (s : CallMuteButton) :
    s.assignRadialShowProgress env value
      = { s with
          radialShowProgress := value,
          radial := if value ≠ s.radialShowProgress
            then (radialShowProgressHandler env value s).radial else s.radial } := by
  unfold CallMuteButton.assignRadialShowProgress
  split_ifs with h
  · rw [radialShowProgressHandler_eq]
    congr 1
    exact radialShowProgressHandler_radial_congr env value _ s rfl
  · cases s
    simp_all

/-- One run of the callback, member by member: `e` is the event fired by
`overridesColors`. -/
theorem invoke_eq (env : Env) (cb : SwitchCallback) (value : ℚ) (e : CallButtonColors)
    (he : ∀ s, overridesColors env cb.previous cb.type value s
        = some { s with colorOverrides := s.colorOverrides ++ [e] })
    (s : CallMuteButton) :
    cb.invoke env value s = some
      { s with
        blobs := { s.blobs with
          blobBrush := env.linearGradient cb.gradient value,
          glowBrush := env.radialGradient cb.glow value },
        crossLineProgress :=
          (if cb.crossFrom = cb.crossTo then cb.crossTo
            else InterpolateF (toInt cb.crossFrom) (toInt cb.crossTo) value),
        radialShowProgress :=
          (if cb.radialShowFrom = cb.radialShowTo then cb.radialShowTo
            else InterpolateF (toInt cb.radialShowFrom) (toInt cb.radialShowTo) value),
        radial :=
          (if (if cb.radialShowFrom = cb.radialShowTo then cb.radialShowTo
                else InterpolateF (toInt cb.radialShowFrom) (toInt cb.radialShowTo) value)
              ≠ s.radialShowProgress
            then (radialShowProgressHandler env
              (if cb.radialShowFrom = cb.radialShowTo then cb.radialShowTo
                else InterpolateF (toInt cb.radialShowFrom) (toInt cb.radialShowTo) value)
              s).radial
            else s.radial),
        colorOverrides := s.colorOverrides ++ [e] } := by
  unfold SwitchCallback.invoke
  simp only [he, setBrushes_eq, updateCrossLineProgress_eq, assignRadialShowProgress_eq]
  congr 2
  simp only [ne_eq, ite_not]
  congr 1
  exact radialShowProgressHandler_radial_congr env _ _ s rfl

/-- The callback built for the step from `previous` to `type`. -/
theorem switchCallback_eq (env : Env) (previous type : CallMuteButtonType)
    (blobs : BlobsWidget) :
    ∃ cP cT gP gT,
      mapAt (Colors env.st) previous = some cP ∧
      mapAt (Colors env.st) type = some cT ∧
      glowColor env previous = some gP ∧
      glowColor env type = some gT ∧
      switchCallback env previous type blobs = some
        { previous := previous, type := type,
          crossFrom := if IsMuted previous = true then 0 else 1,
          crossTo := if IsMuted type = true then 0 else 1,
          radialShowFrom := if IsConnecting previous = true then 1 else 0,
          radialShowTo := if IsConnecting type = true then 1 else 0,
          gradient :=
            { colorsFrom := cP, colorsTo := cT,
              point1 := { x := blobs.inner.x, y := blobs.inner.y + blobs.inner.height },
              point2 := { x := blobs.inner.x + blobs.inner.width, y := blobs.inner.y } },
          glow :=
            { colorsFrom := [gP, QColor.transparent],
              colorsTo := [gT, QColor.transparent],
              center := blobs.inner.center,
              radius := Int.tdiv blobs.width 2 } } := by
  refine ⟨_, _, _, _, mapAt_Colors env.st previous, mapAt_Colors env.st type,
    glowColor_eq env previous, glowColor_eq env type, ?_⟩
  unfold switchCallback
  rw [mapAt_Colors, mapAt_Colors, glowColor_eq, glowColor_eq]
  rfl

/-- The state type handler never fails: it records the new type in
`*previousType` and replaces the animation by a fresh ramp from 0 to 1 over
`kSwitchStateDuration`, started at `now`, whose callback is the one built
for the step from the old `*previousType` to the new type. -/
theorem stateTypeHandler_eq (env : Env) (now : Int) (type : CallMuteButtonType)
    (s : CallMuteButton) :
    ∃ cb, switchCallback env s.previousType type s.blobs = some cb ∧
      stateTypeHandler env now type s = some
        { s with
          previousType := type,
          switchAnimation := some
            { callback := cb, valueFrom := 0, valueTo := 1,
              duration := kSwitchStateDuration, started := now } } := by
  obtain ⟨cb, hcb⟩ := Option.isSome_iff_exists.mp
    (switchCallback_isSome env s.previousType type s.blobs)
  refine ⟨cb, hcb, ?_⟩
  simp [stateTypeHandler, hcb]

theorem crossFrom_cases (type : CallMuteButtonType) :
    ((if IsMuted type = true then (0 : ℚ) else 1) = 0 ∨
      (if IsMuted type = true then (0 : ℚ) else 1) = 1) := by
  cases type <;> simp [IsMuted]

theorem radialFrom_cases (type : CallMuteButtonType) :
    ((if IsConnecting type = true then (1 : ℚ) else 0) = 0 ∨
      (if IsConnecting type = true then (1 : ℚ) else 0) = 1) := by
  cases type <;> simp [IsConnecting]

theorem isMuted_ite (type : CallMuteButtonType) :
    (if IsMuted type = true then (0 : ℚ) else 1)
      = (if type = CallMuteButtonType.Active then 1 else 0) := by
  cases type <;> simp [IsMuted]

theorem isConnecting_ite (type : CallMuteButtonType) :
    (if IsConnecting type = true then (1 : ℚ) else 0)
      = (if type = CallMuteButtonType.Connecting then 1 else 0) := by
  cases type <;> simp [IsConnecting]

/-- The two progress values written by the callback built for the step from
`previous` to `type`, for any value of the ramp and any state it runs on. -/
theorem invoke_switchCallback (env : Env) (previous type : CallMuteButtonType)
    (blobs : BlobsWidget) (value : ℚ) (s : CallMuteButton) :
    ∃ cb r, switchCallback env previous type blobs = some cb ∧
      cb.previous = previous ∧ cb.type = type ∧
      cb.invoke env value s = some r ∧
      r.crossLineProgress
        = (if previous = CallMuteButtonType.Active then 1 else 0)
          + ((if type = CallMuteButtonType.Active then 1 else 0)
              - (if previous = CallMuteButtonType.Active then 1 else 0)) * value ∧
      r.radialShowProgress
        = (if previous = CallMuteButtonType.Connecting then 1 else 0)
          + ((if type = CallMuteButtonType.Connecting then 1 else 0)
              - (if previous = CallMuteButtonType.Connecting then 1 else 0)) * value ∧
      r.radial = (if r.radialShowProgress ≠ s.radialShowProgress
        then (radialShowProgressHandler env r.radialShowProgress s).radial else s.radial) ∧
      r.blobs.blobBrush = env.linearGradient cb.gradient value ∧
      r.blobs.glowBrush = env.radialGradient cb.glow value ∧
      r.state = s.state ∧ r.previousType = s.previousType ∧
      r.switchAnimation = s.switchAnimation ∧ r.level = s.level ∧
      r.blobs.inner = s.blobs.inner ∧ r.blobs.width = s.blobs.width ∧
      r.blobs.levels = s.blobs.levels := by
  obtain ⟨cP, cT, gP, gT, _, _, _, _, hcb⟩ := switchCallback_eq env previous type blobs
  obtain ⟨e, he, _, _⟩ := overridesColors_fires_one env previous type value
  refine ⟨_, _, hcb, rfl, rfl, invoke_eq env _ value e he s, ?_, ?_, rfl, rfl, rfl, rfl, rfl,
    rfl, rfl, rfl, rfl, rfl⟩
  · show (if _ = _ then _ else InterpolateF _ _ value) = _
    rw [crossProgress_eq _ _ (crossFrom_cases previous) (crossFrom_cases type),
      isMuted_ite, isMuted_ite]
  · show (if _ = _ then _ else InterpolateF _ _ value) = _
    rw [crossProgress_eq _ _ (radialFrom_cases previous) (radialFrom_cases type),
      isConnecting_ite, isConnecting_ite]

/-! ## Calls on the button -/

/-- The callback never fails and leaves the stored state, `*previousType`,
the animation, the level and the geometry of the blobs widget alone. -/
theorem invoke_preserves (env : Env) (cb : SwitchCallback) (value : ℚ) (s : CallMuteButton) :
    ∃ r, cb.invoke env value s = some r ∧
      r.state = s.state ∧ r.previousType = s.previousType ∧
      r.switchAnimation = s.switchAnimation ∧ r.level = s.level ∧
      r.blobs.inner = s.blobs.inner ∧ r.blobs.width = s.blobs.width ∧
      r.blobs.levels = s.blobs.levels := by
  obtain ⟨e, he, _, _⟩ := overridesColors_fires_one env cb.previous cb.type value
  exact ⟨_, invoke_eq env cb value e he s, rfl, rfl, rfl, rfl, rfl, rfl, rfl⟩

/-- A frame of a button without a running animation does nothing. -/
theorem tick_idle (env : Env) (now : Int) (s : CallMuteButton)
    (h : s.switchAnimation = none) : s.tick env now = some s := by
  simp [CallMuteButton.tick, h]

/-- A frame at or after the end of the ramp stops the animation and runs the
callback with the final value. -/
theorem tick_finished (env : Env) (now : Int) (s : CallMuteButton) (a : SimpleAnimation)
    (h : s.switchAnimation = some a) (hn : a.started + a.duration ≤ now) :
    s.tick env now = a.callback.invoke env a.valueTo { s with switchAnimation := none } := by
  have hd : a.duration ≤ (if env.disabled = true then a.duration else now - a.started) := by
    split_ifs
    · exact le_refl _
    · omega
  simp [CallMuteButton.tick, h, hd]

/-- A frame never fails, and keeps the stored state, `*previousType`, the
level and the geometry of the blobs widget. -/
theorem tick_preserves (env : Env) (now : Int) (s : CallMuteButton) :
    ∃ r, s.tick env now = some r ∧
      r.state = s.state ∧ r.previousType = s.previousType ∧ r.level = s.level ∧
      r.blobs.inner = s.blobs.inner ∧ r.blobs.width = s.blobs.width ∧
      r.blobs.levels = s.blobs.levels := by
  cases h : s.switchAnimation with
  | none => exact ⟨s, tick_idle env now s h, rfl, rfl, rfl, rfl, rfl, rfl⟩
  | some a =>
    obtain ⟨v, s1, ht, hs1⟩ : ∃ v s1, s.tick env now = a.callback.invoke env v s1 ∧
        (s1 = s ∨ s1 = { s with switchAnimation := none }) := by
      unfold CallMuteButton.tick
      simp only [h]
      refine ⟨_, _, rfl, ?_⟩
      by_cases hf : a.duration ≤ (if env.disabled = true then a.duration else now - a.started)
      · right
        simp [hf]
      · left
        simp [hf]
    obtain ⟨r, hr, h1, h2, _, h4, h5, h6, h7⟩ := invoke_preserves env a.callback v s1
    rw [ht]
    rcases hs1 with rfl | rfl
    · exact ⟨r, hr, h1, h2, h4, h5, h6, h7⟩
    · exact ⟨r, hr, h1, h2, h4, h5, h6, h7⟩

/-- An assignment that `rpl::variable` does not suppress stores the state
and runs the state type handler. -/
theorem setState_changed (env : Env) (now : Int) (state : CallMuteButtonState)
    (s : CallMuteButton) (h : env.stateComparable = false ∨ s.state ≠ state) :
    s.setState env now state = stateTypeHandler env now state.type { s with state := state } := by
  unfold CallMuteButton.setState
  rcases h with h | h
  · simp [h]
  · simp [h]

/-- A call of `setState` never fails; afterwards the stored state is the argument and
`*previousType` is its type, provided `*previousType` was the type of the
stored state before. -/
theorem setState_invariant (env : Env) (now : Int) (state : CallMuteButtonState)
    (s : CallMuteButton) (hinv : s.previousType = s.state.type) :
    ∃ r, s.setState env now state = some r ∧ r.state = state ∧
      r.previousType = r.state.type ∧ r.blobs = s.blobs := by
  by_cases h : env.stateComparable = true ∧ s.state = state
  · refine ⟨s, ?_, h.2, hinv, rfl⟩
    simp [CallMuteButton.setState, h]
  · have h1 : env.stateComparable = false ∨ s.state ≠ state := by
      by_cases hc : env.stateComparable = true
      · exact Or.inr (fun hs => h ⟨hc, hs⟩)
      · exact Or.inl (by simpa using hc)
    obtain ⟨cb, _, hh⟩ := stateTypeHandler_eq env now state.type { s with state := state }
    rw [setState_changed env now state s h1, hh]
    exact ⟨_, rfl, rfl, rfl, rfl⟩

/-- Every call succeeds and keeps `*previousType` equal to the type of the
stored state. -/
theorem step_invariant (env : Env) (s : CallMuteButton) (c : Call)
    (hinv : s.previousType = s.state.type) :
    ∃ r, s.step env c = some r ∧ r.previousType = r.state.type := by
  cases c with
  | setState now state =>
    obtain ⟨r, hr, _, h2, _⟩ := setState_invariant env now state s hinv
    exact ⟨r, hr, h2⟩
  | setLevel level => exact ⟨_, rfl, hinv⟩
  | tick now =>
    obtain ⟨r, hr, h1, h2, _⟩ := tick_preserves env now s
    exact ⟨r, hr, by rw [h1, h2, hinv]⟩

theorem run_invariant (env : Env) (calls : List Call) :
    ∀ s : CallMuteButton, s.previousType = s.state.type →
      ∃ r, s.run env calls = some r ∧ r.previousType = r.state.type := by
  induction calls with
  | nil => exact fun s h => ⟨s, rfl, h⟩
  | cons c cs ih =>
    intro s h
    obtain ⟨s1, hs1, h1⟩ := step_invariant env s c h
    obtain ⟨r, hr, h2⟩ := ih s1 h1
    exact ⟨r, by simp [CallMuteButton.run, hs1, hr], h2⟩

/-- The constructor never fails; it leaves `*previousType` equal to the
initial type and a first animation running from the initial type to
itself. -/
theorem create_eq (env : Env) (now : Int) (blobs : BlobsWidget)
    (initial : CallMuteButtonState) :
    ∃ s, CallMuteButton.create env now blobs initial = some s ∧
      s.state = initial ∧ s.previousType = initial.type ∧ s.blobs = blobs := by
  unfold CallMuteButton.create
  simp only []
  rw [radialShowProgressHandler_eq]
  obtain ⟨cb, _, hh⟩ := stateTypeHandler_eq env now initial.type
    { state := initial, level := 0, crossLineProgress := 0, radialShowProgress := 0,
      blobs := blobs,
      radial := (radialShowProgressHandler env 0
        { state := initial, level := 0, crossLineProgress := 0, radialShowProgress := 0,
          blobs := blobs, radial := none, previousType := initial.type,
          switchAnimation := none, colorOverrides := [] }).radial,
      previousType := initial.type,
      switchAnimation := none, colorOverrides := [] }
  exact ⟨_, hh, rfl, rfl, rfl⟩

/-- A `setState` that is not suppressed, followed by a frame at or after the
end of the new ramp: the frame runs the callback built for the step from the
old `*previousType` to the new type with the value 1. -/
theorem setState_then_finish (env : Env) (now now1 : Int) (state : CallMuteButtonState)
    (s : CallMuteButton) (hch : env.stateComparable = false ∨ s.state ≠ state)
    (hn : now + kSwitchStateDuration ≤ now1) :
    ∃ cb s1, switchCallback env s.previousType state.type s.blobs = some cb ∧
      s.setState env now state = some s1 ∧
      s1.state = state ∧ s1.previousType = state.type ∧ s1.blobs = s.blobs ∧
      s1.radialShowProgress = s.radialShowProgress ∧ s1.radial = s.radial ∧
      s1.tick env now1 = cb.invoke env 1 { s1 with switchAnimation := none } := by
  obtain ⟨cb, hcb, hh⟩ := stateTypeHandler_eq env now state.type { s with state := state }
  refine ⟨cb,
    { s with
      state := state, previousType := state.type,
      switchAnimation := some
        { callback := cb, valueFrom := 0, valueTo := 1,
          duration := kSwitchStateDuration, started := now } },
    hcb, ?_, rfl, rfl, rfl, rfl, rfl, ?_⟩
  · rw [setState_changed env now state s hch, hh]
  · exact tick_finished env now1 _
      { callback := cb, valueFrom := 0, valueTo := 1,
        duration := kSwitchStateDuration, started := now } rfl hn

/-! ## Claims about the transition -/

/-- C6: idle invariant.  For every initial state and every finite sequence
of calls made on the button after its construction (`setState` calls, with
frames of the animation and `setLevel` calls interleaved at will, so in
particular once the last transition has received its final frame), every
call returns and the stored `*previousType` equals the type of the current
state. -/
theorem C6_idle_invariant (env : Env) (now : Int) (blobs : BlobsWidget)
    (initial : CallMuteButtonState) (calls : List Call) :
    ∃ s0 s, CallMuteButton.create env now blobs initial = some s0 ∧
      s0.run env calls = some s ∧
      s.previousType = s.state.type := by
  obtain ⟨s0, h0, hst, hprev, _⟩ := create_eq env now blobs initial
  obtain ⟨s, hs, hinv⟩ := run_invariant env calls s0 (by rw [hprev, hst])
  exact ⟨s0, s, h0, hs, hinv⟩

/-- C7: for every previous type `P` (the stored `*previousType`), new type
`T` and callback value `t` in [0,1], the callback started by the state type
handler writes `from + (to - from) * t` to `_crossLineProgress`, where `from`
is 1 if `P` is `Active` and 0 otherwise and `to` is 1 if `T` is `Active` and
0 otherwise; the value lies in [0,1], is `from` at 0 and `to` at 1.  After a
completed `Muted -> Active` transition it is exactly 1. -/
theorem C7_cross_fade_progress (env : Env) (s : CallMuteButton) (now : Int)
    (type : CallMuteButtonType) (t : ℚ) (h0 : 0 ≤ t) (h1 : t ≤ 1) (s2 : CallMuteButton) :
    (∃ s1 a r, stateTypeHandler env now type s = some s1 ∧
      s1.switchAnimation = some a ∧
      a.callback.invoke env t s2 = some r ∧
      r.crossLineProgress
        = (if s.previousType = CallMuteButtonType.Active then 1 else 0)
          + ((if type = CallMuteButtonType.Active then 1 else 0)
              - (if s.previousType = CallMuteButtonType.Active then 1 else 0)) * t ∧
      0 ≤ r.crossLineProgress ∧ r.crossLineProgress ≤ 1 ∧
      (t = 0 → r.crossLineProgress
        = (if s.previousType = CallMuteButtonType.Active then 1 else 0)) ∧
      (t = 1 → r.crossLineProgress
        = (if type = CallMuteButtonType.Active then 1 else 0))) ∧
    (s.state.type = CallMuteButtonType.Muted →
      s.previousType = CallMuteButtonType.Muted →
      ∀ (text : String) (now1 : Int), now + kSwitchStateDuration ≤ now1 →
        ∃ r, s.run env
            [Call.setState now { text := text, type := CallMuteButtonType.Active },
              Call.tick now1] = some r ∧
          r.crossLineProgress = 1) := by
  constructor
  · obtain ⟨cb, hcb, hh⟩ := stateTypeHandler_eq env now type s
    obtain ⟨cb1, r, hcb1, _, _, hr, hcross, _⟩ :=
      invoke_switchCallback env s.previousType type s.blobs t s2
    have hc : cb1 = cb := Option.some.inj (hcb1.symm.trans hcb)
    subst hc
    refine ⟨_, _, r, hh, rfl, hr, hcross, ?_, ?_, ?_, ?_⟩
    · rw [hcross]
      split_ifs <;> norm_num <;> linarith
    · rw [hcross]
      split_ifs <;> norm_num <;> linarith
    · intro ht
      rw [hcross, ht]
      ring
    · intro ht
      rw [hcross, ht]
      ring
  · intro hst hprev text now1 hn
    have hne : s.state ≠ { text := text, type := CallMuteButtonType.Active } := by
      intro hs
      rw [hs] at hst
      simp at hst
    obtain ⟨cb, s1, hcb, hset, _, _, _, _, _, htick⟩ := setState_then_finish env now now1
      { text := text, type := CallMuteButtonType.Active } s (Or.inr hne) hn
    obtain ⟨cb1, r, hcb1, _, _, hr, hcross, _⟩ :=
      invoke_switchCallback env s.previousType CallMuteButtonType.Active s.blobs 1
        { s1 with switchAnimation := none }
    have hc : cb1 = cb := Option.some.inj (hcb1.symm.trans hcb)
    subst hc
    refine ⟨r, ?_, ?_⟩
    · simp [CallMuteButton.run, CallMuteButton.step, hset, htick, hr]
    · rw [hcross, hprev]
      norm_num

/-- C8: spinner lifecycle.  For every prior spinner state and every value
`v` in [0,1] handed to the subscriber of `_radialShowProgress`, afterwards
`_radial` exists exactly when `v > 0` and animations are not disabled; it is
created only when `v > 0` with animations enabled, it is gone when `v` is 0,
and nothing but `_radial` changes.  The value the callback built for the
step from `previous` to `type` stores and delivers at ramp value `t` is
`from + (to - from) * t` with `from` = 1 iff `previous` is `Connecting` and
`to` = 1 iff `type` is `Connecting`; it is delivered when it differs from
the stored one, and the spinner is left alone otherwise. -/
theorem C8_spinner_lifecycle (env : Env) (v : ℚ) (hv0 : 0 ≤ v) (_hv1 : v ≤ 1)
    (s : CallMuteButton) :
    (((radialShowProgressHandler env v s).radial.isSome = true)
      ↔ (0 < v ∧ env.disabled = false)) ∧
    (s.radial = none → (radialShowProgressHandler env v s).radial.isSome = true →
      (0 < v ∧ env.disabled = false)) ∧
    (v = 0 → (radialShowProgressHandler env v s).radial = none) ∧
    (radialShowProgressHandler env v s
      = { s with radial := (radialShowProgressHandler env v s).radial }) ∧
    (∀ (previous type : CallMuteButtonType) (blobs : BlobsWidget) (t : ℚ)
        (s2 : CallMuteButton),
      ∃ cb r, switchCallback env previous type blobs = some cb ∧
        cb.invoke env t s2 = some r ∧
        r.radialShowProgress
          = (if previous = CallMuteButtonType.Connecting then 1 else 0)
            + ((if type = CallMuteButtonType.Connecting then 1 else 0)
                - (if previous = CallMuteButtonType.Connecting then 1 else 0)) * t ∧
        r.radial = (if r.radialShowProgress ≠ s2.radialShowProgress
          then (radialShowProgressHandler env r.radialShowProgress s2).radial
          else s2.radial)) := by
  have key : ((radialShowProgressHandler env v s).radial.isSome = true)
      ↔ (0 < v ∧ env.disabled = false) := by
    unfold radialShowProgressHandler
    rcases lt_or_eq_of_le hv0 with hpos | hzero
    · have hne : v ≠ 0 := ne_of_gt hpos
      cases hd : env.disabled <;> cases hr : s.radial <;> simp [hne, hpos, hr]
    · subst hzero
      cases hd : env.disabled <;> cases hr : s.radial <;> simp [hr]
  refine ⟨key, fun _ h => key.mp h, ?_, radialShowProgressHandler_eq env v s, ?_⟩
  · intro hz
    have hn : ¬ ((radialShowProgressHandler env v s).radial.isSome = true) := by
      rw [key]
      intro h
      exact absurd h.1 (by rw [hz]; exact lt_irrefl 0)
    cases hr : (radialShowProgressHandler env v s).radial with
    | none => rfl
    | some x => exact absurd (by simp [hr]) hn
  · intro previous type blobs t s2
    obtain ⟨cb, r, hcb, _, _, hr, _, hrad, hradial, _⟩ :=
      invoke_switchCallback env previous type blobs t s2
    exact ⟨cb, r, hcb, hr, hrad, hradial⟩

/-! ## Terminal outputs -/

/-- With an `anim::color` that returns its second colour at progress 1, the
event fired at progress 1 is determined by the destination type. -/
theorem overridesColors_terminal (env : Env) (hc : ∀ a b, env.color a b 1 = b)
    (toType : CallMuteButtonType) :
    ∃ e, ∀ fromType s, overridesColors env fromType toType 1 s
      = some { s with colorOverrides := s.colorOverrides ++ [e] } := by
  by_cases h : IsInactive toType = true
  · exact ⟨_, fun fromType s => overridesColors_null env fromType toType 1 s ⟨h, rfl⟩⟩
  · obtain ⟨ct, ct1, ht⟩ := mapAt_Colors_pair env.st toType
    refine ⟨{ bg := some (ct.setAlpha kOverrideColorBgAlpha),
              ripple := some (ct.setAlpha kOverrideColorRippleAlpha) }, fun fromType s => ?_⟩
    obtain ⟨cf, cf1, hf⟩ := mapAt_Colors_pair env.st fromType
    rw [overridesColors_blend env fromType toType 1 s cf ct _ _ hf ht (fun hh => h hh.1)]
    simp [hc, h]

/-- With interpolators that return their second endpoint at progress 1, the
outputs left by the final run of a callback are determined by the
destination type and the geometry of the blobs widget. -/
theorem terminal_outputs (env : Env)
    (hc : ∀ a b, env.color a b 1 = b)
    (hl : ∀ g g1 : LinearGradients, g.colorsFrom.length = g1.colorsFrom.length →
      g.colorsTo = g1.colorsTo → g.point1 = g1.point1 → g.point2 = g1.point2 →
      env.linearGradient g 1 = env.linearGradient g1 1)
    (hr : ∀ g g1 : RadialGradients, g.colorsFrom.length = g1.colorsFrom.length →
      g.colorsTo = g1.colorsTo → g.center = g1.center → g.radius = g1.radius →
      env.radialGradient g 1 = env.radialGradient g1 1)
    (type : CallMuteButtonType) (inner : QRect) (width : Int) :
    ∃ out : OutputFrame, ∀ (previous : CallMuteButtonType) (blobs : BlobsWidget)
        (s : CallMuteButton), blobs.inner = inner → blobs.width = width →
      ∃ cb r, switchCallback env previous type blobs = some cb ∧
        cb.invoke env 1 s = some r ∧ r.outputs = out := by
  obtain ⟨e, he⟩ := overridesColors_terminal env hc type
  obtain ⟨cT0, cT1, hcT⟩ := mapAt_Colors_pair env.st type
  obtain ⟨gT, hgT⟩ : ∃ gT, glowColor env type = some gT := ⟨_, glowColor_eq env type⟩
  refine ⟨{ crossFadeProgress := if type = CallMuteButtonType.Active then 1 else 0,
            spinnerProgress := if type = CallMuteButtonType.Connecting then 1 else 0,
            blobBrush := env.linearGradient
              { colorsFrom := [cT0, cT1], colorsTo := [cT0, cT1],
                point1 := { x := inner.x, y := inner.y + inner.height },
                point2 := { x := inner.x + inner.width, y := inner.y } } 1,
            glowBrush := env.radialGradient
              { colorsFrom := [gT, QColor.transparent], colorsTo := [gT, QColor.transparent],
                center := inner.center, radius := Int.tdiv width 2 } 1,
            chromeColorOverride := some e }, ?_⟩
  intro previous blobs s hi hw
  obtain ⟨cP, cT2, gP, gT1, hcP, hcT2, _, hgT1, hcb⟩ :=
    switchCallback_eq env previous type blobs
  obtain ⟨cP0, cP1, hcP1⟩ := mapAt_Colors_pair env.st previous
  have e0 : cP = [cP0, cP1] := Option.some.inj (hcP.symm.trans hcP1)
  have e1 : cT2 = [cT0, cT1] := Option.some.inj (hcT2.symm.trans hcT)
  have e2 : gT1 = gT := Option.some.inj (hgT1.symm.trans hgT)
  subst e0 e1 e2
  refine ⟨_, _, hcb, invoke_eq env _ 1 e (fun s1 => he previous s1) s, ?_⟩
  simp only [CallMuteButton.outputs, OutputFrame.mk.injEq]
  refine ⟨?_, ?_, ?_, ?_, ?_⟩
  · rw [crossProgress_eq _ _ (crossFrom_cases previous) (crossFrom_cases type),
      isMuted_ite type]
    ring
  · rw [crossProgress_eq _ _ (radialFrom_cases previous) (radialFrom_cases type),
      isConnecting_ite type]
    ring
  · exact hl _ _ rfl rfl (by simp [hi]) (by simp [hi])
  · exact hr _ _ rfl rfl (by simp [hi]) (by simp [hw])
  · simp

/-- A `setState` that is not suppressed never fails and keeps the blobs
widget. -/
theorem setState_changed_eq (env : Env) (now : Int) (state : CallMuteButtonState)
    (s : CallMuteButton) (hch : env.stateComparable = false ∨ s.state ≠ state) :
    ∃ s1, s.setState env now state = some s1 ∧ s1.state = state ∧
      s1.previousType = state.type ∧ s1.blobs = s.blobs := by
  obtain ⟨cb, _, hh⟩ := stateTypeHandler_eq env now state.type { s with state := state }
  rw [setState_changed env now state s hch, hh]
  exact ⟨_, rfl, rfl, rfl, rfl⟩

/-- A `setState` that is not suppressed, followed by a frame at or after the
end of its ramp, leaves the outputs `out` that belong to the new type. -/
theorem setState_finish_outputs (env : Env) (now now1 : Int) (state : CallMuteButtonState)
    (s : CallMuteButton) (out : OutputFrame)
    (hout : ∀ (previous : CallMuteButtonType) (blobs : BlobsWidget) (s1 : CallMuteButton),
      blobs.inner = s.blobs.inner → blobs.width = s.blobs.width →
      ∃ cb r, switchCallback env previous state.type blobs = some cb ∧
        cb.invoke env 1 s1 = some r ∧ r.outputs = out)
    (hch : env.stateComparable = false ∨ s.state ≠ state)
    (hn : now + kSwitchStateDuration ≤ now1) :
    ∃ r, s.run env [Call.setState now state, Call.tick now1] = some r ∧ r.outputs = out := by
  obtain ⟨cb, s1, hcb, hset, _, _, _, _, _, htick⟩ :=
    setState_then_finish env now now1 state s hch hn
  obtain ⟨cb1, r, hcb1, hr, ho⟩ := hout s.previousType s.blobs
    { s1 with switchAnimation := none } rfl rfl
  have hc : cb1 = cb := Option.some.inj (hcb1.symm.trans hcb)
  subst hc
  exact ⟨r, by simp [CallMuteButton.run, CallMuteButton.step, hset, htick, hr], ho⟩

theorem run_append (env : Env) (xs ys : List Call) :
    ∀ s : CallMuteButton, s.run env (xs ++ ys) = (s.run env xs).bind (fun s1 => s1.run env ys) := by
  induction xs with
  | nil => exact fun s => rfl
  | cons c cs ih =>
    intro s
    cases h : s.step env c with
    | none => simp [CallMuteButton.run, h]
    | some s1 => simp [CallMuteButton.run, h, ih s1]

/-- C3: terminal outputs are path-independent.  Assume the interpolators
return their second endpoint at progress 1: `anim::color` returns the second
colour, and the gradient objects return a brush that depends on the second
colour list and the geometry only (for first colour lists of one length).
Then for every destination type and geometry of the blobs widget there is
one set of outputs `out` (cross-fade progress, spinner progress, blob brush,
glow brush, colour override pair) that the callback leaves at value 1
whatever the previous type and whatever the state it runs on.  In particular
`Active -> Connecting -> ForceMuted`, with the second call made at any
moment and a frame in between, settles to the outputs of the direct
`Active -> ForceMuted` transition. -/
theorem C3_terminal_outputs_path_independent (env : Env)
    (hc : ∀ a b, env.color a b 1 = b)
    (hl : ∀ g g1 : LinearGradients, g.colorsFrom.length = g1.colorsFrom.length →
      g.colorsTo = g1.colorsTo → g.point1 = g1.point1 → g.point2 = g1.point2 →
      env.linearGradient g 1 = env.linearGradient g1 1)
    (hr : ∀ g g1 : RadialGradients, g.colorsFrom.length = g1.colorsFrom.length →
      g.colorsTo = g1.colorsTo → g.center = g1.center → g.radius = g1.radius →
      env.radialGradient g 1 = env.radialGradient g1 1) :
    (∀ (type : CallMuteButtonType) (inner : QRect) (width : Int),
      ∃ out : OutputFrame, ∀ (previous : CallMuteButtonType) (blobs : BlobsWidget)
          (s : CallMuteButton), blobs.inner = inner → blobs.width = width →
        ∃ cb r, switchCallback env previous type blobs = some cb ∧
          cb.invoke env 1 s = some r ∧ r.outputs = out) ∧
    (∀ (s : CallMuteButton) (text1 text2 text3 : String) (now1 now2 now3 now4 now5 now6 : Int),
      s.state.type = CallMuteButtonType.Active →
      now3 + kSwitchStateDuration ≤ now4 → now5 + kSwitchStateDuration ≤ now6 →
      ∃ r r1,
        s.run env
          [Call.setState now1 { text := text1, type := CallMuteButtonType.Connecting },
            Call.tick now2,
            Call.setState now3 { text := text2, type := CallMuteButtonType.ForceMuted },
            Call.tick now4] = some r ∧
        s.run env
          [Call.setState now5 { text := text3, type := CallMuteButtonType.ForceMuted },
            Call.tick now6] = some r1 ∧
        r.outputs = r1.outputs) := by
  refine ⟨fun type inner width => terminal_outputs env hc hl hr type inner width, ?_⟩
  intro s text1 text2 text3 now1 now2 now3 now4 now5 now6 hs h34 h56
  obtain ⟨out, hout⟩ := terminal_outputs env hc hl hr CallMuteButtonType.ForceMuted
    s.blobs.inner s.blobs.width
  have hne1 : s.state ≠ { text := text1, type := CallMuteButtonType.Connecting } := by
    intro h
    rw [h] at hs
    simp at hs
  have hne3 : s.state ≠ { text := text3, type := CallMuteButtonType.ForceMuted } := by
    intro h
    rw [h] at hs
    simp at hs
  obtain ⟨s1, hs1, hst1, _, hb1⟩ := setState_changed_eq env now1 _ s (Or.inr hne1)
  obtain ⟨s2, hs2, hst2, _, _, hi2, hw2, _⟩ := tick_preserves env now2 s1
  have hne2 : s2.state ≠ { text := text2, type := CallMuteButtonType.ForceMuted } := by
    intro h
    rw [hst2, hst1] at h
    simp at h
  obtain ⟨r, hr2, ho⟩ := setState_finish_outputs env now3 now4
    { text := text2, type := CallMuteButtonType.ForceMuted } s2 out
    (fun previous blobs s3 hi hw =>
      hout previous blobs s3 (by rw [hi, hi2, hb1]) (by rw [hw, hw2, hb1]))
    (Or.inr hne2) h34
  obtain ⟨r1, hr1, ho1⟩ := setState_finish_outputs env now5 now6
    { text := text3, type := CallMuteButtonType.ForceMuted } s out
    (fun previous blobs s3 hi hw => hout previous blobs s3 hi hw)
    (Or.inr hne3) h56
  refine ⟨r, r1, ?_, hr1, by rw [ho, ho1]⟩
  have happ := run_append env
    [Call.setState now1 { text := text1, type := CallMuteButtonType.Connecting },
      Call.tick now2]
    [Call.setState now3 { text := text2, type := CallMuteButtonType.ForceMuted },
      Call.tick now4] s
  simp only [List.cons_append, List.nil_append] at happ
  rw [happ]
  have h12 : s.run env
      [Call.setState now1 { text := text1, type := CallMuteButtonType.Connecting },
        Call.tick now2] = some s2 := by
    simp [CallMuteButton.run, CallMuteButton.step, hs1, hs2]
  rw [h12]
  exact hr2

/-! ## The concrete interpolators at progress 1 -/

theorem specColor_one (a b : QColor) : specColor a b 1 = b := by
  cases b
  simp [specColor]

theorem zipWith_snd (xs : List QColor) :
    ∀ ys : List QColor, List.zipWith (fun _ b => b) xs ys = ys.take xs.length := by
  induction xs with
  | nil => exact fun ys => by simp
  | cons x xs ih =>
    intro ys
    cases ys with
    | nil => simp
    | cons y ys => simp [ih ys]

theorem specLinearGradient_one (g g1 : LinearGradients)
    (hlen : g.colorsFrom.length = g1.colorsFrom.length) (hto : g.colorsTo = g1.colorsTo)
    (h1 : g.point1 = g1.point1) (h2 : g.point2 = g1.point2) :
    specLinearGradient g 1 = specLinearGradient g1 1 := by
  simp only [specLinearGradient, specColor_one, zipWith_snd, hlen, hto, h1, h2]

theorem specRadialGradient_one (g g1 : RadialGradients)
    (hlen : g.colorsFrom.length = g1.colorsFrom.length) (hto : g.colorsTo = g1.colorsTo)
    (h1 : g.center = g1.center) (h2 : g.radius = g1.radius) :
    specRadialGradient g 1 = specRadialGradient g1 1 := by
  simp only [specRadialGradient, specColor_one, zipWith_snd, hlen, hto, h1, h2]

/-! ## Instances of the claims on the concrete environment -/

/-- Witness of C3: with the concrete interpolators, a button at rest in
`Active` that is sent to `Connecting` and, 70 ms later, to `ForceMuted`
settles to the outputs of the direct transition. -/
theorem C3_terminal_outputs_path_independent_witness :
    ((sampleButton { text := "Live", type := CallMuteButtonType.Active }).run sampleEnv
        [Call.setState 0 { text := "Connecting", type := CallMuteButtonType.Connecting },
          Call.tick 60,
          Call.setState 70 { text := "Muted", type := CallMuteButtonType.ForceMuted },
          Call.tick 190]).map CallMuteButton.outputs
      = ((sampleButton { text := "Live", type := CallMuteButtonType.Active }).run sampleEnv
        [Call.setState 0 { text := "Muted", type := CallMuteButtonType.ForceMuted },
          Call.tick 120]).map CallMuteButton.outputs := by
  obtain ⟨r, r1, h1, h2, h3⟩ :=
    (C3_terminal_outputs_path_independent sampleEnv specColor_one specLinearGradient_one
      specRadialGradient_one).2
      (sampleButton { text := "Live", type := CallMuteButtonType.Active })
      "Connecting" "Muted" "Muted" 0 60 70 190 0 120 rfl (by decide) (by decide)
  rw [h1, h2, Option.map_some', Option.map_some', h3]

/-- Witness of C7: half-way through `Muted -> Active` the cross-fade
progress is one half. -/
theorem C7_cross_fade_progress_witness :
    (0 : ℚ) ≤ 1 / 2 ∧ (1 / 2 : ℚ) ≤ 1 ∧
    ∃ s1 a r,
      stateTypeHandler sampleEnv 0 CallMuteButtonType.Active
        (sampleButton { text := "Muted", type := CallMuteButtonType.Muted }) = some s1 ∧
      s1.switchAnimation = some a ∧
      a.callback.invoke sampleEnv (1 / 2) s1 = some r ∧
      r.crossLineProgress = 1 / 2 := by
  refine ⟨by norm_num, by norm_num, ?_⟩
  obtain ⟨s1, a, h1, h2⟩ : ∃ s1 a, stateTypeHandler sampleEnv 0 CallMuteButtonType.Active
      (sampleButton { text := "Muted", type := CallMuteButtonType.Muted }) = some s1 ∧
      s1.switchAnimation = some a := ⟨_, _, rfl, rfl⟩
  obtain ⟨⟨s2, a2, r, h3, h4, h5, h6, _⟩, _⟩ := C7_cross_fade_progress sampleEnv
    (sampleButton { text := "Muted", type := CallMuteButtonType.Muted }) 0
    CallMuteButtonType.Active (1 / 2) (by norm_num) (by norm_num) s1
  have e1 : s2 = s1 := Option.some.inj (h3.symm.trans h1)
  subst e1
  have e2 : a2 = a := Option.some.inj (h4.symm.trans h2)
  subst e2
  refine ⟨s2, a2, r, h1, h2, h5, ?_⟩
  rw [h6]
  simp [sampleButton]

/-- Witness of C8: the value one half creates the spinner of a button that
has none, with animations enabled. -/
theorem C8_spinner_lifecycle_witness :
    (0 : ℚ) ≤ 1 / 2 ∧ (1 / 2 : ℚ) ≤ 1 ∧
    (radialShowProgressHandler sampleEnv (1 / 2)
      (sampleButton { text := "Muted", type := CallMuteButtonType.Muted })).radial.isSome
        = true := by
  refine ⟨by norm_num, by norm_num, ?_⟩
  exact (C8_spinner_lifecycle sampleEnv (1 / 2) (by norm_num) (by norm_num)
    (sampleButton { text := "Muted", type := CallMuteButtonType.Muted })).1.mpr
      ⟨by norm_num, rfl⟩

/-! ## Claims that the code does not satisfy as written -/

/-- C9, as written, fails: on `ForceMuted -> Active` the event fired at
progress 0 is the `ForceMuted` endpoint and it still has the alpha 255 of
the palette (not 76 and 50), and the event fired at progress 1 is the
`Active` endpoint and its alpha has been replaced by 76 and 50 (not kept). -/
theorem C9_counterexample :
    IsInactive CallMuteButtonType.ForceMuted = true ∧
    IsInactive CallMuteButtonType.Active = false ∧
    (overridesColors sampleEnv CallMuteButtonType.ForceMuted CallMuteButtonType.Active 0
        (sampleButton { text := "Muted", type := CallMuteButtonType.ForceMuted })).map
        (fun r => r.colorOverrides)
      = some [{ bg := some { red := 40, green := 40, blue := 40, alpha := 255 },
                ripple := some { red := 40, green := 40, blue := 40, alpha := 255 } }] ∧
    (overridesColors sampleEnv CallMuteButtonType.ForceMuted CallMuteButtonType.Active 1
        (sampleButton { text := "Muted", type := CallMuteButtonType.ForceMuted })).map
        (fun r => r.colorOverrides)
      = some [{ bg := some { red := 0, green := 200, blue := 170, alpha := 76 },
                ripple := some { red := 0, green := 200, blue := 170, alpha := 50 } }] := by
  decide!

/-- C9, amended: in the blended pair fired by `overridesColors` (any case
but `progress == 1` with an inactive `toType`), the alpha is replaced for
the endpoints that are NOT inactive: an endpoint of type `Active` or `Muted`
enters `anim::color` with alpha `kOverrideColorBgAlpha` (76) for the
background and `kOverrideColorRippleAlpha` (50) for the ripple, while an
inactive endpoint (`ForceMuted`, `Connecting`) enters with the first colour
of its table entry unchanged. -/
theorem C9_alpha_of_endpoints (env : Env) (fromType toType : CallMuteButtonType)
    (progress : ℚ) (s : CallMuteButton)
    (h : ¬ (IsInactive toType = true ∧ progress = 1)) :
    ∃ cf cf1 ct ct1,
      mapAt (Colors env.st) fromType = some [cf, cf1] ∧
      mapAt (Colors env.st) toType = some [ct, ct1] ∧
      overridesColors env fromType toType progress s = some
        { s with colorOverrides := s.colorOverrides ++
            [{ bg := some (env.color
                  (if IsInactive fromType = true then cf
                    else cf.setAlpha kOverrideColorBgAlpha)
                  (if IsInactive toType = true then ct
                    else ct.setAlpha kOverrideColorBgAlpha)
                  progress),
               ripple := some (env.color
                  (if IsInactive fromType = true then cf
                    else cf.setAlpha kOverrideColorRippleAlpha)
                  (if IsInactive toType = true then ct
                    else ct.setAlpha kOverrideColorRippleAlpha)
                  progress) }] } ∧
      kOverrideColorBgAlpha = 76 ∧ kOverrideColorRippleAlpha = 50 ∧
      (IsInactive fromType = true ↔
        (fromType = CallMuteButtonType.ForceMuted ∨ fromType = CallMuteButtonType.Connecting)) ∧
      (IsInactive toType = true ↔
        (toType = CallMuteButtonType.ForceMuted ∨ toType = CallMuteButtonType.Connecting)) := by
  obtain ⟨cf, cf1, hf⟩ := mapAt_Colors_pair env.st fromType
  obtain ⟨ct, ct1, ht⟩ := mapAt_Colors_pair env.st toType
  exact ⟨cf, cf1, ct, ct1, hf, ht,
    overridesColors_blend env fromType toType progress s cf ct _ _ hf ht h, rfl, rfl,
    isInactive_iff fromType, isInactive_iff toType⟩

/-- Witness of the amended C9 on `Connecting -> Muted` at progress one
half. -/
theorem C9_alpha_of_endpoints_witness :
    ¬ (IsInactive CallMuteButtonType.Muted = true ∧ (1 / 2 : ℚ) = 1) ∧
    (overridesColors sampleEnv CallMuteButtonType.Connecting CallMuteButtonType.Muted (1 / 2)
        (sampleButton { text := "Muted", type := CallMuteButtonType.Muted })).map
        (fun r => r.colorOverrides)
      = some [{ bg := some (specColor
                  { red := 40, green := 40, blue := 40, alpha := 255 }
                  { red := 90, green := 120, blue := 240, alpha := 76 } (1 / 2)),
                ripple := some (specColor
                  { red := 40, green := 40, blue := 40, alpha := 255 }
                  { red := 90, green := 120, blue := 240, alpha := 50 } (1 / 2)) }] := by
  have hne : ¬ (IsInactive CallMuteButtonType.Muted = true ∧ (1 / 2 : ℚ) = 1) := by
    intro h
    exact absurd h.1 (by decide)
  refine ⟨hne, ?_⟩
  obtain ⟨cf, cf1, ct, ct1, hf, ht, ho, _⟩ := C9_alpha_of_endpoints sampleEnv
    CallMuteButtonType.Connecting CallMuteButtonType.Muted (1 / 2)
    (sampleButton { text := "Muted", type := CallMuteButtonType.Muted }) hne
  have e1 : [cf, cf1] = [samplePalette.callIconBg, samplePalette.callIconBg] :=
    Option.some.inj (hf.symm.trans rfl)
  have e2 : [ct, ct1] = [samplePalette.groupCallMuted1, samplePalette.groupCallMuted2] :=
    Option.some.inj (ht.symm.trans rfl)
  simp only [List.cons.injEq, and_true] at e1 e2
  obtain ⟨rfl, rfl⟩ := e1
  obtain ⟨rfl, rfl⟩ := e2
  rw [ho]
  rfl

/-- C5, as written, fails: `setLevel(-1)` stores -1 in `_level` and hands -1
to the blobs widget, `setLevel(0)` stores and hands on 0; likewise 5 and 1
stay apart. -/
theorem C5_counterexample :
    ((sampleButton { text := "Muted", type := CallMuteButtonType.Muted }).setLevel (-1)).level
      = -1 ∧
    ((sampleButton { text := "Muted", type := CallMuteButtonType.Muted }).setLevel 0).level
      = 0 ∧
    ((sampleButton { text := "Muted", type := CallMuteButtonType.Muted }).setLevel (-1)).blobs.levels
      = [-1] ∧
    ((sampleButton { text := "Muted", type := CallMuteButtonType.Muted }).setLevel 0).blobs.levels
      = [0] ∧
    (sampleButton { text := "Muted", type := CallMuteButtonType.Muted }).setLevel (-1)
      ≠ (sampleButton { text := "Muted", type := CallMuteButtonType.Muted }).setLevel 0 ∧
    (sampleButton { text := "Muted", type := CallMuteButtonType.Muted }).setLevel 5
      ≠ (sampleButton { text := "Muted", type := CallMuteButtonType.Muted }).setLevel 1 := by
  decide!

/-- C5, amended: `setLevel` does not clamp.  For every button state and
every `x`, `setLevel(x)` stores `x` itself in `_level` and hands `x` itself
to `BlobsWidget::setLevel`, which passes it on to the painter, and changes
nothing else; so `setLevel(x)` and `setLevel(y)` leave the button in the
same state exactly when `x = y`. -/
theorem C5_setLevel_stores_argument (x y : ℚ) (s : CallMuteButton) :
    (s.setLevel x).level = x ∧
    (s.setLevel x).blobs = s.blobs.setLevel x ∧
    (s.setLevel x).blobs.levels = s.blobs.levels ++ [x] ∧
    (s.setLevel x).blobs.levels.getLast? = some x ∧
    s.setLevel x = { s with level := x, blobs := { s.blobs with levels := s.blobs.levels ++ [x] } } ∧
    (s.setLevel x = s.setLevel y ↔ x = y) := by
  refine ⟨rfl, rfl, rfl, ?_, rfl, ?_⟩
  · simp [CallMuteButton.setLevel, BlobsWidget.setLevel]
  · constructor
    · intro h
      have h1 := congrArg CallMuteButton.level h
      exact h1
    · intro h
      rw [h]

/-- The glow colour of a type in terms of the first colour of its table
entry. -/
theorem glowColor_of_first (env : Env) (type : CallMuteButtonType) (c0 c1 : QColor)
    (h : mapAt (Colors env.st) type = some [c0, c1]) :
    glowColor env type = some
      (if IsInactive type = true then env.st.groupCallBg else c0.setAlpha kGlowAlpha) := by
  unfold glowColor
  cases hi : IsInactive type <;> simp [h]

/-- C2, as written, fails: a button at rest in `Muted` is sent to `Active`;
the frame 60 ms later writes the cross-fade progress 1/2.  `setState(Muted)`
at that instant starts a new ramp, and its callback at value 0 writes 1, the
terminal value of `Active`. -/
theorem C2_counterexample :
    ((sampleButton { text := "Muted", type := CallMuteButtonType.Muted }).run sampleEnv
        [Call.setState 0 { text := "Live", type := CallMuteButtonType.Active },
          Call.tick 60]).map (fun r => r.crossLineProgress) = some (1 / 2) ∧
    ((sampleButton { text := "Muted", type := CallMuteButtonType.Muted }).run sampleEnv
        [Call.setState 0 { text := "Live", type := CallMuteButtonType.Active },
          Call.tick 60,
          Call.setState 60 { text := "Muted", type := CallMuteButtonType.Muted },
          Call.tick 60]).map (fun r => r.crossLineProgress) = some 1 ∧
    ((sampleButton { text := "Muted", type := CallMuteButtonType.Muted }).run sampleEnv
        [Call.setState 0 { text := "Live", type := CallMuteButtonType.Active },
          Call.tick 60,
          Call.setState 60 { text := "Muted", type := CallMuteButtonType.Muted }]).map
        (fun r => r.switchAnimation.map (fun a => (a.valueFrom, a.started)))
      = some (some (0, 60)) := by
  decide!

/-- C2, amended: when a transition to `B` is interrupted, after any frame,
by `setState(C)` with `C != B`, the handler replaces the animation by a
fresh ramp from 0 to 1 over 120 ms whose callback goes from `B` to `C`, and
the outputs that callback computes at value 0 are the terminal values of
`B`, whatever the progress of the interrupted transition was: cross-fade
progress 1 if `B` is `Active` and 0 otherwise, spinner progress 1 if `B` is
`Connecting` and 0 otherwise, and brushes that are the values at 0 of the
gradients from the colours of `B` to the colours of `C`.  The blob brush is
the linear gradient from the table entry of `B` to the table entry of `C`
between the bottom left and the top right corner of the inner rectangle of
the blobs widget; the glow brush is the radial gradient from the glow colour
of `B` to the glow colour of `C` (each followed by transparent) around the
centre of that rectangle with half the widget width as radius, where the
glow colour of an inactive type is `st::groupCallBg` and that of another
type is the first colour of its table entry with alpha `kGlowAlpha`. -/
theorem C2_interrupt_starts_from_terminal (env : Env) (s : CallMuteButton)
    (textB textC : String) (B C : CallMuteButtonType) (now1 now2 now3 : Int)
    (hB : s.state.type ≠ B) (hC : C ≠ B) :
    ∃ s2 s3 a r,
      s.run env [Call.setState now1 { text := textB, type := B }, Call.tick now2] = some s2 ∧
      s2.setState env now3 { text := textC, type := C } = some s3 ∧
      s3.switchAnimation = some a ∧
      a.valueFrom = 0 ∧ a.valueTo = 1 ∧ a.duration = 120 ∧ a.started = now3 ∧
      a.callback.previous = B ∧ a.callback.type = C ∧
      mapAt (Colors env.st) B = some a.callback.gradient.colorsFrom ∧
      mapAt (Colors env.st) C = some a.callback.gradient.colorsTo ∧
      a.callback.invoke env 0 s3 = some r ∧
      r.crossLineProgress = (if B = CallMuteButtonType.Active then 1 else 0) ∧
      r.radialShowProgress = (if B = CallMuteButtonType.Connecting then 1 else 0) ∧
      r.blobs.blobBrush = env.linearGradient a.callback.gradient 0 ∧
      r.blobs.glowBrush = env.radialGradient a.callback.glow 0 ∧
      ∃ b0 b1 c0 c1,
        mapAt (Colors env.st) B = some [b0, b1] ∧
        mapAt (Colors env.st) C = some [c0, c1] ∧
        a.callback.gradient =
          { colorsFrom := [b0, b1],
            colorsTo := [c0, c1],
            point1 := { x := s.blobs.inner.x, y := s.blobs.inner.y + s.blobs.inner.height },
            point2 := { x := s.blobs.inner.x + s.blobs.inner.width, y := s.blobs.inner.y } } ∧
        a.callback.glow =
          { colorsFrom :=
              [if IsInactive B = true then env.st.groupCallBg else b0.setAlpha kGlowAlpha,
                QColor.transparent],
            colorsTo :=
              [if IsInactive C = true then env.st.groupCallBg else c0.setAlpha kGlowAlpha,
                QColor.transparent],
            center := s.blobs.inner.center,
            radius := Int.tdiv s.blobs.width 2 } ∧
        kGlowAlpha = 150 ∧
        r.blobs.blobBrush = env.linearGradient
          { colorsFrom := [b0, b1],
            colorsTo := [c0, c1],
            point1 := { x := s.blobs.inner.x, y := s.blobs.inner.y + s.blobs.inner.height },
            point2 := { x := s.blobs.inner.x + s.blobs.inner.width, y := s.blobs.inner.y } }
          0 ∧
        r.blobs.glowBrush = env.radialGradient
          { colorsFrom :=
              [if IsInactive B = true then env.st.groupCallBg else b0.setAlpha kGlowAlpha,
                QColor.transparent],
            colorsTo :=
              [if IsInactive C = true then env.st.groupCallBg else c0.setAlpha kGlowAlpha,
                QColor.transparent],
            center := s.blobs.inner.center,
            radius := Int.tdiv s.blobs.width 2 }
          0 := by
  have hne1 : s.state ≠ { text := textB, type := B } := by
    intro h
    rw [h] at hB
    exact hB rfl
  obtain ⟨s1, hs1, hst1, hp1, hb1⟩ := setState_changed_eq env now1 _ s (Or.inr hne1)
  obtain ⟨s2, hs2, hst2, hp2, _, hi2, hw2, _⟩ := tick_preserves env now2 s1
  have hinner : s2.blobs.inner = s.blobs.inner := by rw [hi2, hb1]
  have hwidth : s2.blobs.width = s.blobs.width := by rw [hw2, hb1]
  have hne2 : s2.state ≠ { text := textC, type := C } := by
    intro h
    rw [hst2, hst1] at h
    simp at h
    exact hC h.2.symm
  obtain ⟨cb, hcb, hh⟩ := stateTypeHandler_eq env now3 C
    { s2 with state := { text := textC, type := C } }
  have hprev : s2.previousType = B := by rw [hp2, hp1]
  replace hcb : switchCallback env B C s2.blobs = some cb := by
    rw [← hprev]
    exact hcb
  obtain ⟨cP, cT, gP, gT, hcP, hcT, hgP, hgT, hcb2⟩ := switchCallback_eq env B C s2.blobs
  obtain ⟨b0, b1, hB01⟩ := mapAt_Colors_pair env.st B
  obtain ⟨c0, c1, hC01⟩ := mapAt_Colors_pair env.st C
  have ecP : cP = [b0, b1] := Option.some.inj (hcP.symm.trans hB01)
  have ecT : cT = [c0, c1] := Option.some.inj (hcT.symm.trans hC01)
  have egP : gP = (if IsInactive B = true then env.st.groupCallBg
      else b0.setAlpha kGlowAlpha) :=
    Option.some.inj (hgP.symm.trans (glowColor_of_first env B b0 b1 hB01))
  have egT : gT = (if IsInactive C = true then env.st.groupCallBg
      else c0.setAlpha kGlowAlpha) :=
    Option.some.inj (hgT.symm.trans (glowColor_of_first env C c0 c1 hC01))
  subst ecP ecT egP egT
  rw [hinner, hwidth] at hcb2
  have hcbeq := Option.some.inj (hcb.symm.trans hcb2)
  obtain ⟨cb1, r, hcb1, _, _, hr, hcross, hrad, _, hblob, hglow, _⟩ :=
    invoke_switchCallback env B C s2.blobs 0
      { s2 with
        state := { text := textC, type := C }, previousType := C,
        switchAnimation := some
          { callback := cb, valueFrom := 0, valueTo := 1,
            duration := kSwitchStateDuration, started := now3 } }
  have hc : cb1 = cb := Option.some.inj (hcb1.symm.trans hcb)
  subst hc
  refine ⟨s2,
    { s2 with
      state := { text := textC, type := C }, previousType := C,
      switchAnimation := some
        { callback := cb1, valueFrom := 0, valueTo := 1,
          duration := kSwitchStateDuration, started := now3 } },
    { callback := cb1, valueFrom := 0, valueTo := 1,
      duration := kSwitchStateDuration, started := now3 },
    r, ?_, ?_, rfl, rfl, rfl, rfl, rfl, ?_, ?_, ?_, ?_, hr, ?_, ?_, hblob, hglow,
    b0, b1, c0, c1, hB01, hC01, ?_, ?_, rfl, ?_, ?_⟩
  · simp [CallMuteButton.run, CallMuteButton.step, hs1, hs2]
  · rw [setState_changed env now3 _ s2 (Or.inr hne2), hh]
  · rw [hcbeq]
  · rw [hcbeq]
  · rw [hcbeq]
    exact hB01
  · rw [hcbeq]
    exact hC01
  · rw [hcross]
    ring
  · rw [hrad]
    ring
  · show cb1.gradient = _
    rw [hcbeq]
  · show cb1.glow = _
    rw [hcbeq]
  · rw [hblob, hcbeq]
  · rw [hglow, hcbeq]

/-- Witness of the amended C2: `Muted -> Active` interrupted after 60 ms by
`setState(Muted)`; the new callback at value 0 writes the cross-fade
progress 1 and the brushes of `Active`. -/
theorem C2_interrupt_starts_from_terminal_witness :
    (sampleButton { text := "Muted", type := CallMuteButtonType.Muted }).state.type
      ≠ CallMuteButtonType.Active ∧
    CallMuteButtonType.Muted ≠ CallMuteButtonType.Active ∧
    ∃ s2 s3 a r,
      (sampleButton { text := "Muted", type := CallMuteButtonType.Muted }).run sampleEnv
        [Call.setState 0 { text := "Live", type := CallMuteButtonType.Active },
          Call.tick 60] = some s2 ∧
      s2.setState sampleEnv 60 { text := "Muted", type := CallMuteButtonType.Muted }
        = some s3 ∧
      s3.switchAnimation = some a ∧
      a.callback.invoke sampleEnv 0 s3 = some r ∧
      r.crossLineProgress = 1 ∧
      r.blobs.blobBrush = QBrush.linear { x := 20, y := 120 } { x := 120, y := 20 }
        [{ red := 0, green := 200, blue := 170, alpha := 255 },
          { red := 0, green := 170, blue := 230, alpha := 255 }] ∧
      r.blobs.glowBrush = QBrush.radial { x := 69, y := 69 } 70
        [{ red := 0, green := 200, blue := 170, alpha := 150 },
          { red := 0, green := 0, blue := 0, alpha := 0 }] := by
  refine ⟨by decide, by decide, ?_⟩
  obtain ⟨s2, s3, a, r, h1, h2, h3, _, _, _, _, _, _, _, _, h4, h5, _, _, _,
      b0, b1, c0, c1, hb, hc, _, _, _, h6, h7⟩ :=
    C2_interrupt_starts_from_terminal sampleEnv
      (sampleButton { text := "Muted", type := CallMuteButtonType.Muted })
      "Live" "Muted" CallMuteButtonType.Active CallMuteButtonType.Muted 0 60 60
      (by decide) (by decide)
  have e1 : [b0, b1] = [samplePalette.groupCallLive1, samplePalette.groupCallLive2] :=
    Option.some.inj (hb.symm.trans rfl)
  have e2 : [c0, c1] = [samplePalette.groupCallMuted1, samplePalette.groupCallMuted2] :=
    Option.some.inj (hc.symm.trans rfl)
  simp only [List.cons.injEq, and_true] at e1 e2
  obtain ⟨rfl, rfl⟩ := e1
  obtain ⟨rfl, rfl⟩ := e2
  refine ⟨s2, s3, a, r, h1, h2, h3, h4, by rw [h5]; rfl, ?_, ?_⟩
  · rw [h6]
    decide!
  · rw [h7]
    decide!

/-- C1, as written, fails: a button at rest in `ForceMuted` (no animation
running) that receives a state of the same type with another label has a
running animation afterwards, started at the time of the call, also when
states are comparable.  The next frame then fires a colour override pair,
where without the call it fires nothing. -/
theorem C1_counterexample :
    (sampleButton { text := "Muted", type := CallMuteButtonType.ForceMuted }).switchAnimation
      = none ∧
    ((sampleButton { text := "Muted", type := CallMuteButtonType.ForceMuted }).setState
        sampleEnv 200 { text := "Muted by admin", type := CallMuteButtonType.ForceMuted }).map
        (fun r => r.switchAnimation.map (fun a => (a.valueFrom, a.valueTo, a.started)))
      = some (some (0, 1, 200)) ∧
    ((sampleButton { text := "Muted", type := CallMuteButtonType.ForceMuted }).setState
        { sampleEnv with stateComparable := true } 200
        { text := "Muted by admin", type := CallMuteButtonType.ForceMuted }).map
        (fun r => r.switchAnimation.map (fun a => (a.valueFrom, a.valueTo, a.started)))
      = some (some (0, 1, 200)) ∧
    ((sampleButton { text := "Muted", type := CallMuteButtonType.ForceMuted }).run sampleEnv
        [Call.setState 200 { text := "Muted by admin", type := CallMuteButtonType.ForceMuted },
          Call.tick 260]).map (fun r => r.colorOverrides)
      = some [{ bg := some { red := 40, green := 40, blue := 40, alpha := 255 },
                ripple := some { red := 40, green := 40, blue := 40, alpha := 255 } }] ∧
    ((sampleButton { text := "Muted", type := CallMuteButtonType.ForceMuted }).run sampleEnv
        [Call.tick 260]).map (fun r => r.colorOverrides) = some [] := by
  decide!

/-- C1, amended: for every button state in which `*previousType` is the
current type, and every new state of the same type that `rpl::variable` does
not suppress (its label differs, or states are not comparable), `setState`
stores the new state and the state type handler does stop and restart the
switch animation: afterwards a fresh ramp from 0 to 1 over 120 ms, started
at the time of the call, is running, whose callback goes from the type to
itself.  The call itself changes only the stored state and the animation;
every frame of the restarted ramp writes the terminal cross-fade and spinner
progress of the type.  An equal state assigned to a comparable variable
changes nothing. -/
theorem C1_same_type_restarts (env : Env) (now : Int) (state : CallMuteButtonState)
    (s : CallMuteButton) (htype : state.type = s.state.type)
    (hinv : s.previousType = s.state.type)
    (hch : env.stateComparable = false ∨ state.text ≠ s.state.text) :
    (∃ cb, switchCallback env state.type state.type s.blobs = some cb ∧
      cb.previous = state.type ∧ cb.type = state.type ∧
      s.setState env now state = some
        { s with
          state := state,
          switchAnimation := some
            { callback := cb, valueFrom := 0, valueTo := 1, duration := 120, started := now } } ∧
      (∀ (t : ℚ) (s2 : CallMuteButton), ∃ r, cb.invoke env t s2 = some r ∧
        r.crossLineProgress = (if state.type = CallMuteButtonType.Active then 1 else 0) ∧
        r.radialShowProgress
          = (if state.type = CallMuteButtonType.Connecting then 1 else 0))) ∧
    (env.stateComparable = true → s.setState env now s.state = some s) := by
  constructor
  · have hne : env.stateComparable = false ∨ s.state ≠ state := by
      rcases hch with h | h
      · exact Or.inl h
      · exact Or.inr (fun hs => h (by rw [hs]))
    obtain ⟨cb, hcb, hh⟩ := stateTypeHandler_eq env now state.type { s with state := state }
    replace hcb : switchCallback env state.type state.type s.blobs = some cb := by
      simp only [hinv, htype] at hcb ⊢
      exact hcb
    obtain ⟨_, _, _, _, _, _, _, _, hcb2⟩ := switchCallback_eq env state.type state.type s.blobs
    have hcbeq := Option.some.inj (hcb.symm.trans hcb2)
    refine ⟨cb, hcb, by rw [hcbeq], by rw [hcbeq], ?_, ?_⟩
    · rw [setState_changed env now state s hne, hh]
      have hp : state.type = s.previousType := by rw [htype, hinv]
      simp only [hp]
      rfl
    · intro t s2
      obtain ⟨cb1, r, hcb1, _, _, hr, hcross, hrad, _⟩ :=
        invoke_switchCallback env state.type state.type s.blobs t s2
      have hc : cb1 = cb := Option.some.inj (hcb1.symm.trans hcb)
      subst hc
      refine ⟨r, hr, ?_, ?_⟩
      · rw [hcross]
        ring
      · rw [hrad]
        ring
  · intro hc
    simp [CallMuteButton.setState, hc]

/-- Witness of the amended C1: a button at rest in `ForceMuted` receives the
same type with another label. -/
theorem C1_same_type_restarts_witness :
    (sampleButton { text := "Muted", type := CallMuteButtonType.ForceMuted }).previousType
      = (sampleButton { text := "Muted", type := CallMuteButtonType.ForceMuted }).state.type ∧
    ((sampleButton { text := "Muted", type := CallMuteButtonType.ForceMuted }).setState
        sampleEnv 200 { text := "Muted by admin", type := CallMuteButtonType.ForceMuted }).map
        (fun r => (r.state.text, r.switchAnimation.map
          (fun a => (a.valueFrom, a.valueTo, a.duration, a.started))))
      = some ("Muted by admin", some (0, 1, 120, 200)) := by
  refine ⟨rfl, ?_⟩
  obtain ⟨⟨cb, _, _, _, h, _⟩, _⟩ := C1_same_type_restarts sampleEnv 200
    { text := "Muted by admin", type := CallMuteButtonType.ForceMuted }
    (sampleButton { text := "Muted", type := CallMuteButtonType.ForceMuted })
    rfl rfl (Or.inl rfl)
  rw [h]
  rfl

end Ui
